import Mathlib

/-!
Shallow embedding of the fstore object-storage server core
(fstore-core, fstored and crates/fstore-core source trees).

Conventions of the embedding:

* A `Uuid` is its canonical 36-character lowercase hyphenated rendering
  (the Rust code always formats ids with `Uuid::to_string` before using
  them in paths, and compares ids by value).
* A filesystem `Path` is its list of components; `path.join(c)` is
  `path ++ [c]`.
* The on-disk state is an association list from paths to file data
  (content bytes modelled as a `String`, plus the Unix mode bits).
* External functions (the sha2 crate's SHA-256, libmagic's MIME
  detection, the uuid crate's parser) are parameters of the definitions
  that call them, mirroring the fact that they are crate boundaries.
* Stateful Rust methods become state-passing Lean functions; fallible
  code returns `Except`.
-/

namespace Fstore

/-! ### Error types (fstore-core/src/error.rs, sqlx) -/

inductive SqlError
  | RowNotFound
  | Other (msg : String)
deriving DecidableEq

inductive Error
  | Sql (e : SqlError)
  | WriteLock
  | Internal (msg : String)
  | InProgress
  | NotFound (entity : String)
deriving DecidableEq

/-! ### Paths and UUIDs -/

abbrev Uuid := String

abbrev Path := List String

/-- Slice of an (ASCII) string by byte positions, as Rust `&s[start..stop]`. -/
def strSlice (s : String) (start stop : Nat) : String :=
  ((s.toList.drop start).take (stop - start)).asString

def ID_SLICE_SIZE : Nat := 2

def ID_SLICES : Nat := 2

def OBJECTS_DIR : String := "objects"

def PARTS_DIR : String := "parts"

def OBJECT_PERMISSIONS : Nat := 0o640

/-- Embedding of `path_for_id` from fstore-core/src/fs.rs (identical in
crates/fstore-core/src/fs.rs): push the two two-character prefix slices of
the id, then the id itself. -/
def path_for_id (parent : Path) (id : Uuid) : Path :=
  parent ++
    (List.range ID_SLICES).map
      (fun i => strSlice id (i * ID_SLICE_SIZE) (i * ID_SLICE_SIZE + ID_SLICE_SIZE)) ++
    [id]

/-- Embedding of `path_for_id` from fstored/src/core/fs.rs: that version
pushes the two prefix slices but, unlike the other two copies of the
function, never pushes the id itself (even though its CAPACITY constant
reserves 36 bytes of space for the id). -/
def path_for_id_fstored (parent : Path) (id : Uuid) : Path :=
  parent ++
    (List.range ID_SLICES).map
      (fun i => strSlice id (i * ID_SLICE_SIZE) (i * ID_SLICE_SIZE + ID_SLICE_SIZE))

/-- The canonical nil UUID rendering, used as a concrete test input. -/
def uuidNil : Uuid := "00000000-0000-0000-0000-000000000000"

/-! ### On-disk state -/

structure FileData where
  content : String
  mode : Nat
deriving DecidableEq

abbrev FsState := List (Path × FileData)

def getFile : FsState → Path → Option FileData
  | [], _ => none
  | (q, f) :: rest, p => if q = p then some f else getFile rest p

def eraseFile : FsState → Path → FsState
  | [], _ => []
  | (q, f) :: rest, p =>
    if q = p then eraseFile rest p else (q, f) :: eraseFile rest p

def setFile (fs : FsState) (p : Path) (f : FileData) : FsState :=
  (p, f) :: eraseFile fs p

/-! ### Part lock set (fstore-core/src/fs/part.rs) -/

structure PartLock where
  id : Uuid
deriving DecidableEq

/-- Embedding of `PartLockSet::lock`: `storage.insert(*id)` returns true
exactly when the id was not yet present; on true a `PartLock` token is
returned, otherwise the call fails with `WriteLock`. -/
def PartLockSet.lock (storage : Finset Uuid) (id : Uuid) :
    Except Error (PartLock × Finset Uuid) :=
  if id ∈ storage then .error .WriteLock
  else .ok (⟨id⟩, insert id storage)

/-- Embedding of `impl Drop for PartLock`: remove the token's id from the
shared set. -/
def PartLock.drop (lock : PartLock) (storage : Finset Uuid) : Finset Uuid :=
  storage.erase lock.id

end Fstore

namespace Fstore

/-! ### Theorems below are developed after all definitions; this section
continues with definitions for the filesystem component. -/

structure Filesystem where
  objects : Path
  parts : Path
deriving DecidableEq

/-- Embedding of `Filesystem::new`. -/
def Filesystem.new (home : Path) : Filesystem :=
  ⟨home ++ [OBJECTS_DIR], home ++ [PARTS_DIR]⟩

def Filesystem.object_path (fs : Filesystem) (id : Uuid) : Path :=
  path_for_id fs.objects id

def Filesystem.part_path (fs : Filesystem) (id : Uuid) : Path :=
  path_for_id fs.parts id

/-- Rust `std::fs::Permissions` value. `Metadata::permissions()` hands out
a detached copy of the file's permissions. -/
structure Permissions where
  mode : Nat
deriving DecidableEq

/-- Embedding of `Permissions::set_mode`: updates the (detached) value. -/
def Permissions.set_mode (_p : Permissions) (m : Nat) : Permissions :=
  ⟨m⟩

def FileData.permissions (f : FileData) : Permissions :=
  ⟨f.mode⟩

structure ObjectMeta where
  id : Uuid
  hash : String
  size : Nat
  ty : String
  subtype : String
deriving DecidableEq

/-- Embedding of `Filesystem::move_part`: ensure the object's parent
directories exist (implicit in the path-map model) and rename the part
file to the object path; a missing source makes the rename fail with
`Internal`. -/
def Filesystem.move_part (fs : Filesystem) (st : FsState) (part_id : Uuid) :
    Except Error (FsState × Path) :=
  let part := fs.part_path part_id
  let object := fs.object_path part_id
  match getFile st part with
  | none => .error (.Internal "Failed to move part file to objects directory")
  | some f => .ok (setFile (eraseFile st part) object f, object)

/-- Embedding of `Filesystem::commit` (identical in all three copies of
fs.rs with respect to permissions): rename the part to the object path,
fetch its metadata, call `metadata.permissions().set_mode(OBJECT_PERMISSIONS)`
— which in the Rust source mutates a detached `Permissions` copy that is
immediately dropped, never touching the file — then compute the MIME type
and SHA-256 and return the object description. The `sha256` and `mime`
functions are external crates and enter as parameters. The in-process part
lock taken at the top of `commit` is private to the call and released on
return; the commit is modelled as one atomic step. -/
def Filesystem.commit (sha256 : String → String) (mime : String → String × String)
    (fs : Filesystem) (st : FsState) (part_id : Uuid) :
    Except Error (FsState × ObjectMeta) :=
  match fs.move_part st part_id with
  | .error e => .error e
  | .ok (st, object) =>
    match getFile st object with
    | none => .error (.Internal "Failed to fetch metadata for object file")
    | some metadata =>
      let _perms := metadata.permissions.set_mode OBJECT_PERMISSIONS
      let ts := mime metadata.content
      .ok (st, ⟨part_id, sha256 metadata.content, metadata.content.length, ts.1, ts.2⟩)

/-! ### Archive copy and extraneous-file removal
(crates/fstore-core/src/fs.rs, fstore-core/src/fs/rm.rs) -/

/-- Embedding of the free function `check` in crates/fstore-core/src/fs.rs:
fail if the path does not exist, otherwise compare its SHA-256 with the
expected hash. -/
def fsCheck (sha256 : String → String) (st : FsState) (path : Path)
    (hash : String) : Except String Unit :=
  match getFile st path with
  | none => .error "file does not exist"
  | some f =>
    if sha256 f.content = hash then .ok ()
    else .error "hash mismatch"

/-- Embedding of `Filesystem::copy`: compute the destination path under
`destination/objects`, skip when the destination already matches the
expected hash, otherwise copy the source file there (creating directories,
which the path-map model makes implicit). The returned Bool records
whether the copy branch ran (true) or the call skipped or failed before
writing (false). -/
def Filesystem.copy (sha256 : String → String) (fs : Filesystem) (st : FsState)
    (object_id : Uuid) (destination : Path) (hash : String) :
    Except String Unit × FsState × Bool :=
  let objects := destination ++ [OBJECTS_DIR]
  let dest := path_for_id objects object_id
  match fsCheck sha256 st dest hash with
  | .ok () => (.ok (), st, false)
  | .error _ =>
    let source := fs.object_path object_id
    match getFile st source with
    | none => (.error "failed to copy object file", st, false)
    | some f => (.ok (), setFile st dest f, true)

/-- Kinds of I/O failure relevant to `blocking::remove`: `fs::remove_file`
either succeeds, fails with `ErrorKind::NotFound`, or fails otherwise. -/
inductive IoErrorKind
  | notFound
  | other
deriving DecidableEq

/-- Embedding of `blocking::remove` in fstore-core/src/fs/rm.rs: try to
unlink the file; a NotFound error is ignored, any other error aborts with
`Internal`. The subsequent removal of up to `ID_SLICES` empty parent
directories only logs its failures and never changes the result, so it is
elided from the state. The `fsFail` parameter gives the I/O outcome the
operating system reports for unlinking each path. -/
def blockingRemove (fsFail : Path → Option IoErrorKind) (p : Path) :
    Except Error Unit :=
  match fsFail p with
  | none => .ok ()
  | some .notFound => .ok ()
  | some .other =>
    .error (.Internal ("failed to remove file " ++ String.intercalate "/" p))

/-- Embedding of `rm::remove_files`: unlink each path in order inside one
blocking task, stopping at (and propagating) the first failure. -/
def remove_files (fsFail : Path → Option IoErrorKind) :
    List Path → Except Error Unit
  | [] => .ok ()
  | p :: rest =>
    match blockingRemove fsFail p with
    | .error e => .error e
    | .ok () => remove_files fsFail rest

/-- File type of a directory entry as reported by the walk
(walkdir's `file_type()`): directory, regular file, or anything else
(symlink etc.). -/
inductive EntryType
  | dir
  | file
  | other
deriving DecidableEq

/-- One entry of the recursive walk over the archive's objects tree. -/
structure DirEntry where
  path : Path
  name : String
  etype : EntryType
deriving DecidableEq

/-- Embedding of the entry loop of `blocking::remove_extraneous` in
fstore-core/src/fs/rm.rs: directories are skipped; non-file entries are
removed; files whose name does not parse as a UUID are removed; files
whose corresponding path under the primary tree `src` does not exist are
removed; all other files are kept. Returns the removed paths in order.
The walk itself and the removals are modelled as succeeding (their error
paths abort the whole call); `uuidParse` is the uuid crate's parser, and
`primary` is the on-disk state holding the primary objects tree. -/
def blockingRemoveExtraneous (uuidParse : String → Option Uuid)
    (primary : FsState) (src : Path) : List DirEntry → List Path
  | [] => []
  | e :: rest =>
    if e.etype = .dir then blockingRemoveExtraneous uuidParse primary src rest
    else if e.etype = .file then
      match uuidParse e.name with
      | none => e.path :: blockingRemoveExtraneous uuidParse primary src rest
      | some id =>
        if (getFile primary (path_for_id src id)).isSome then
          blockingRemoveExtraneous uuidParse primary src rest
        else e.path :: blockingRemoveExtraneous uuidParse primary src rest
    else e.path :: blockingRemoveExtraneous uuidParse primary src rest

/-- Embedding of `Filesystem::remove_extraneous`: the walk is rooted at
`destination/objects` and the primary tree is the filesystem's own objects
root. The `entries` are those the walk yields under that root. -/
def Filesystem.remove_extraneous (uuidParse : String → Option Uuid)
    (fs : Filesystem) (primary : FsState) (entries : List DirEntry) :
    List Path :=
  blockingRemoveExtraneous uuidParse primary fs.objects entries

/-- Specification-side characterisation of an extraneous entry, written
from the spec's words for comparison with the source's loop: a non-
directory entry is removed exactly when it is not a regular file whose
name parses as a UUID with an existing primary path. -/
def extraneousSpec (uuidParse : String → Option Uuid) (primary : FsState)
    (src : Path) (e : DirEntry) : Bool :=
  if e.etype = .dir then false
  else if e.etype = .file then
    match uuidParse e.name with
    | none => true
    | some id => !(getFile primary (path_for_id src id)).isSome
  else true

/-! ### Metadata store and prune (fstore-core/src/lib.rs, db.rs) -/

/-- A row of the objects table as streamed by the metadata store
(db::Object, reduced to the fields the claims use). -/
structure DbObject where
  object_id : Uuid
  hash : String
deriving DecidableEq

/-- Metadata-store state: object rows plus bucket-object associations
(bucket id, object id). -/
structure DbState where
  objects : List DbObject
  associations : List (Uuid × Uuid)
deriving DecidableEq

/-- An object row is an orphan when no bucket association references it. -/
def isOrphan (db : DbState) (obj : DbObject) : Bool :=
  db.associations.all (fun a => a.2 ≠ obj.object_id)

/-- Modelled from the spec: the SQL behind the `transaction!` macro's
`remove_orphan_objects` is not under src/; per the spec it removes every
Object row with zero associations and returns the removed rows. Executed
inside the transaction, so the row removal is staged until commit. -/
def remove_orphan_objects (db : DbState) : DbState × List DbObject :=
  (⟨db.objects.filter (fun o => !isOrphan db o), db.associations⟩,
   db.objects.filter (fun o => isOrphan db o))

/-- Embedding of `ObjectStore::prune` in fstore-core/src/lib.rs: begin a
transaction, remove the orphan rows inside it, request filesystem removal
of each orphan's file, then commit. The filesystem removal is sequenced
with the `?` operator BEFORE `tx.commit()`, so a removal failure returns
early, the transaction value is dropped uncommitted and the staged row
removals roll back: the function returns the error and the committed
database state is unchanged. On success the transaction commits and the
removed rows are returned. The result pairs prune's return value with the
committed database state. -/
def ObjectStore.prune (fs : Filesystem) (fsFail : Path → Option IoErrorKind)
    (db : DbState) : Except Error (List DbObject) × DbState :=
  let staged := remove_orphan_objects db
  match remove_files fsFail (staged.2.map (fun o => fs.object_path o.object_id)) with
  | .error e => (.error e, db)
  | .ok () => (.ok staged.2, staged.1)

/-! ### Progress and Task (fstore-core/src/progress.rs) -/

def MAX_ERRORS : Nat := 100

/-- A persisted object-error record. -/
structure ObjectError where
  object_id : Uuid
  message : String
deriving DecidableEq

/-- State behind a `Progress` handle: start and end timestamps (modelled
as naturals), the fixed total, the completed and errors counters, the
message buffer and whether the finish notification has fired. -/
structure ProgressState where
  started : Nat
  ended : Option Nat
  total : Nat
  completed : Nat
  errors : Nat
  messages : List ObjectError
  notified : Bool
deriving DecidableEq

def ProgressState.withMessages (st : ProgressState) (ms : List ObjectError) :
    ProgressState :=
  ⟨st.started, st.ended, st.total, st.completed, st.errors, ms, st.notified⟩

def ProgressState.withErrors (st : ProgressState) (n : Nat) : ProgressState :=
  ⟨st.started, st.ended, st.total, st.completed, n, st.messages, st.notified⟩

def ProgressState.withCompleted (st : ProgressState) (n : Nat) : ProgressState :=
  ⟨st.started, st.ended, st.total, n, st.errors, st.messages, st.notified⟩

/-- Embedding of `Progress::new`. -/
def Progress.new (started total : Nat) : ProgressState :=
  ⟨started, none, total, 0, 0, [], false⟩

/-- Embedding of `Progress::finish`: record the end time and notify the
waiters of `finished()`. -/
def Progress.finish (st : ProgressState) (now : Nat) : ProgressState :=
  ⟨st.started, some now, st.total, st.completed, st.errors, st.messages, true⟩

/-- Embedding of `Progress::finished`: await the notification, then
return whether the completed counter equals the total. The await is
modelled by partiality: the value is `none` while the notification has
not fired. -/
def Progress.finished (st : ProgressState) : Option Bool :=
  if st.notified then some (st.completed == st.total) else none

/-- Embedding of `Progress::push_error`: append one record to the buffer;
when the buffer has grown past `MAX_ERRORS` entries, hand the entire
drained buffer to the caller (leaving it empty), otherwise hand back an
empty batch. -/
def Progress.push_error (st : ProgressState) (id : Uuid) (message : String) :
    List ObjectError × ProgressState :=
  let messages := st.messages ++ [⟨id, message⟩]
  if messages.length > MAX_ERRORS then (messages, st.withMessages [])
  else ([], st.withMessages messages)

/-- Embedding of `Progress::error`: bump the errors counter, then push
the record. -/
def Progress.error (st : ProgressState) (id : Uuid) (message : String) :
    List ObjectError × ProgressState :=
  Progress.push_error (st.withErrors (st.errors + 1)) id message

/-- Embedding of `Progress::clear_error`: push the empty message, which
means clear; the errors counter is untouched. -/
def Progress.clear_error (st : ProgressState) (id : Uuid) :
    List ObjectError × ProgressState :=
  Progress.push_error st id ""

/-- Embedding of `Progress::increment`. -/
def Progress.increment (st : ProgressState) : ProgressState :=
  st.withCompleted (st.completed + 1)

/-- Embedding of `Progress::messages`: drain the whole buffer. -/
def Progress.messages (st : ProgressState) : List ObjectError × ProgressState :=
  (st.messages, st.withMessages [])

/-- A `Task` slot holds at most one active `Progress`. -/
abbrev TaskState := Option ProgressState

/-- Embedding of `Task::start`: fail with `InProgress` when a progress is
already installed, install the new one otherwise. -/
def Task.start (slot : TaskState) (p : ProgressState) : Except Error TaskState :=
  match slot with
  | some _ => .error .InProgress
  | none => .ok (some p)

/-- Embedding of `Task::clear`. -/
def Task.clear (_slot : TaskState) : TaskState := none

/-- Embedding of `Task::progress`: snapshot the current handle. -/
def Task.progress (slot : TaskState) : Option ProgressState := slot

/-- A `ProgressGuard` owns a fresh `Progress` installed in a `Task`.
The Task handle is threaded explicitly in this embedding. -/
structure ProgressGuard where
  progress : ProgressState
deriving DecidableEq

/-- Embedding of `ProgressGuard::new`: create the Progress and install it
via `Task::start`, which fails with `InProgress` when the slot is taken. -/
def ProgressGuard.new (started total : Nat) (slot : TaskState) :
    Except Error (ProgressGuard × TaskState) :=
  let progress := Progress.new started total
  match Task.start slot progress with
  | .error e => .error e
  | .ok slot => .ok (⟨progress⟩, slot)

/-- Embedding of `impl Drop for ProgressGuard`: mark the Progress
finished and clear the Task slot. -/
def ProgressGuard.drop (g : ProgressGuard) (slot : TaskState) (now : Nat) :
    ProgressState × TaskState :=
  (Progress.finish g.progress now, Task.clear slot)

/-! ### Object stream worker (ObjectStore::for_each_object) -/

/-- One item of the metadata store's object stream: a row, or a database
error (sqlx yields Results). -/
inductive StreamItem
  | ok (obj : DbObject)
  | err (msg : String)
deriving DecidableEq

/-- Body of the task spawned per object in `for_each_object`: run the
action, record a cleared error on success or an error message on failure,
increment the completed counter, and return the batch to flush (if
non-empty it is written via `update_object_errors`, whose own failure is
only logged). The bounded-parallel spawning is modelled sequentially: the
counters are atomics and the final counts are the same. -/
def processObject (action : DbObject → Except String Unit)
    (st : ProgressState) (obj : DbObject) : ProgressState × List ObjectError :=
  let step :=
    match action obj with
    | .ok () => Progress.clear_error st obj.object_id
    | .error message => Progress.error st obj.object_id message
  (Progress.increment step.2, step.1)

/-- The stream-consuming loop of `for_each_object`: process each row in
turn, accumulating the flushed batches; a stream error logs and returns
early, skipping the final drain. When the stream ends normally the
remaining messages are drained and flushed. The Bool records whether the
loop aborted early. -/
def forEachObjectGo (action : DbObject → Except String Unit)
    (st : ProgressState) (flushed : List ObjectError) :
    List StreamItem → ProgressState × List ObjectError × Bool
  | [] =>
    let drained := Progress.messages st
    (drained.2, flushed ++ drained.1, false)
  | .err _ :: _ => (st, flushed, true)
  | .ok obj :: rest =>
    let step := processObject action st obj
    forEachObjectGo action step.1 (flushed ++ step.2) rest

/-- Embedding of `ObjectStore::for_each_object`: consume the stream, then
— on every exit path, early abort included — drop the `ProgressGuard`,
which finishes the Progress and clears the Task. Returns the final
progress state, the task slot after the guard's drop, and everything
flushed to `update_object_errors`. -/
def for_each_object (action : DbObject → Except String Unit)
    (guard : ProgressGuard) (slot : TaskState) (stream : List StreamItem)
    (now : Nat) : ProgressState × TaskState × List ObjectError :=
  let run := forEachObjectGo action guard.progress [] stream
  let dropped := ProgressGuard.drop ⟨run.1⟩ slot now
  (dropped.1, dropped.2, run.2.1)

/-! ### HTTP error mapping (fstored server boundary) -/

/-- Server-side error type of crates/fstored/src/server/error.rs. -/
inductive ServerError
  | Core (e : Error)
  | RangeNotSatisfiable
deriving DecidableEq

/-- An HTTP response, reduced to status code and body. -/
structure Response where
  status : Nat
  body : String
deriving DecidableEq

/-- Display rendering of core errors (the thiserror derive in
fstore-core/src/error.rs), used by the response bodies. -/
def Error.display : Error → String
  | .Sql _ => "SQL Error"
  | .WriteLock => "This object is being written to by another request"
  | .Internal msg => msg
  | .InProgress => "task already in progress"
  | .NotFound entity => entity ++ " not found"

/-- Embedding of `impl IntoResponse for Error` in
crates/fstored/src/server/error.rs: SQL RowNotFound and NotFound return
404; a range error returns 416; every other core error — WriteLock,
InProgress, Internal and other SQL errors — is logged and falls through
to the 500 response with the generic body. -/
def into_response : ServerError → Response
  | .Core (.Sql .RowNotFound) => ⟨404, "Not found"⟩
  | .Core (.NotFound entity) => ⟨404, Error.display (.NotFound entity)⟩
  | .RangeNotSatisfiable => ⟨416, ""⟩
  | .Core _ => ⟨500, "Something went wrong"⟩

/-- Embedding of `impl IntoResponse for Error` in
fstored/src/server/error.rs (the older copy): only SQL RowNotFound
returns 404; everything else is logged and answered with the 500
response. -/
def into_response_fstored : Error → Response
  | .Sql .RowNotFound => ⟨404, "Not found"⟩
  | _ => ⟨500, "Something went wrong"⟩

/-! ## Theorems -/

@[simp]
theorem withMessages_messages (st : ProgressState) (ms : List ObjectError) :
    (st.withMessages ms).messages = ms := rfl

@[simp]
theorem withMessages_errors (st : ProgressState) (ms : List ObjectError) :
    (st.withMessages ms).errors = st.errors := rfl

@[simp]
theorem withMessages_completed (st : ProgressState) (ms : List ObjectError) :
    (st.withMessages ms).completed = st.completed := rfl

@[simp]
theorem withMessages_total (st : ProgressState) (ms : List ObjectError) :
    (st.withMessages ms).total = st.total := rfl

@[simp]
theorem withErrors_messages (st : ProgressState) (n : Nat) :
    (st.withErrors n).messages = st.messages := rfl

@[simp]
theorem withErrors_errors (st : ProgressState) (n : Nat) :
    (st.withErrors n).errors = n := rfl

@[simp]
theorem withErrors_completed (st : ProgressState) (n : Nat) :
    (st.withErrors n).completed = st.completed := rfl

@[simp]
theorem withErrors_total (st : ProgressState) (n : Nat) :
    (st.withErrors n).total = st.total := rfl

@[simp]
theorem withCompleted_completed (st : ProgressState) (n : Nat) :
    (st.withCompleted n).completed = n := rfl

@[simp]
theorem withCompleted_total (st : ProgressState) (n : Nat) :
    (st.withCompleted n).total = st.total := rfl

@[simp]
theorem increment_completed (st : ProgressState) :
    (Progress.increment st).completed = st.completed + 1 := rfl

@[simp]
theorem increment_total (st : ProgressState) :
    (Progress.increment st).total = st.total := rfl

@[simp]
theorem finish_notified (st : ProgressState) (now : Nat) :
    (Progress.finish st now).notified = true := rfl

@[simp]
theorem finish_completed (st : ProgressState) (now : Nat) :
    (Progress.finish st now).completed = st.completed := rfl

@[simp]
theorem finish_total (st : ProgressState) (now : Nat) :
    (Progress.finish st now).total = st.total := rfl

@[simp]
theorem finish_ended (st : ProgressState) (now : Nat) :
    (Progress.finish st now).ended = some now := rfl

theorem push_error_snd_completed (st : ProgressState) (id : Uuid) (m : String) :
    (Progress.push_error st id m).2.completed = st.completed := by
  simp only [Progress.push_error]
  split <;> simp

theorem push_error_snd_total (st : ProgressState) (id : Uuid) (m : String) :
    (Progress.push_error st id m).2.total = st.total := by
  simp only [Progress.push_error]
  split <;> simp

theorem push_error_snd_errors (st : ProgressState) (id : Uuid) (m : String) :
    (Progress.push_error st id m).2.errors = st.errors := by
  simp only [Progress.push_error]
  split <;> simp

/-- C5: PartLockSet::lock(id) succeeds with a token and the id inserted
exactly when the id is not currently in the set, fails with WriteLock
exactly when it is present, and after a token's drop (which erases the
id) a fresh lock on that id succeeds again. -/
theorem part_lock_set_lock_spec (storage : Finset Uuid) (id : Uuid)
    (tok : PartLock) :
    (id ∉ storage ↔ PartLockSet.lock storage id = .ok (⟨id⟩, insert id storage))
    ∧ (id ∈ storage ↔ PartLockSet.lock storage id = .error .WriteLock)
    ∧ PartLockSet.lock (PartLock.drop tok storage) tok.id
        = .ok (⟨tok.id⟩, insert tok.id (storage.erase tok.id)) := by
  refine ⟨?_, ?_, ?_⟩
  · by_cases h : id ∈ storage <;> simp [PartLockSet.lock, h]
  · by_cases h : id ∈ storage <;> simp [PartLockSet.lock, h]
  · simp [PartLockSet.lock, PartLock.drop, Finset.not_mem_erase]

/-- C4: Task::start fails with InProgress when a Progress is installed
(so ProgressGuard::new does too), succeeds on an empty slot, and dropping
a ProgressGuard finishes its Progress (notification fired, end time set)
and clears the Task slot, after which a new start succeeds. -/
theorem task_and_guard_exclusion (q p p2 : ProgressState) (g : ProgressGuard)
    (slot : TaskState) (now s t : Nat) :
    Task.start (some q) p = .error .InProgress
    ∧ ProgressGuard.new s t (some q) = .error .InProgress
    ∧ Task.start none p = .ok (some p)
    ∧ (ProgressGuard.drop g slot now).2 = none
    ∧ (ProgressGuard.drop g slot now).1.notified = true
    ∧ (ProgressGuard.drop g slot now).1.ended = some now
    ∧ Task.start (ProgressGuard.drop g slot now).2 p2 = .ok (some p2) :=
  ⟨rfl, rfl, rfl, rfl, rfl, rfl, rfl⟩

/-- C6: in fstore-core/src/fs.rs and crates/fstore-core/src/fs.rs,
path_for_id(root, id) yields root / id[0..2] / id[2..4] / id; but the
copy in fstored/src/core/fs.rs stops after the two prefix slices and
never appends the id itself, as evaluation at the nil UUID shows. -/
theorem path_for_id_fstored_bug :
    (∀ (parent : Path) (id : Uuid),
      path_for_id parent id
        = parent ++ [strSlice id 0 2, strSlice id 2 4, id])
    ∧ path_for_id ["home", OBJECTS_DIR] uuidNil
        = ["home", "objects", "00", "00", uuidNil]
    ∧ path_for_id_fstored ["home", OBJECTS_DIR] uuidNil
        = ["home", "objects", "00", "00"] := by
  refine ⟨fun parent id => ?_, rfl, rfl⟩
  show parent ++ [strSlice id 0 2, strSlice id 2 4] ++ [id] = _
  simp

/-- C7: every Progress::error and Progress::clear_error pushes exactly one
ObjectError record (clear_error pushes the empty message); the call drains
and returns the whole buffer exactly when it has grown past MAX_ERRORS
entries and returns an empty batch otherwise; error increments the errors
counter and clear_error leaves it unchanged. -/
theorem progress_error_buffer_policy (st : ProgressState) (id : Uuid)
    (msg : String) :
    (Progress.error st id msg).2.errors = st.errors + 1
    ∧ (Progress.clear_error st id).2.errors = st.errors
    ∧ (st.messages.length + 1 > MAX_ERRORS →
        (Progress.error st id msg).1 = st.messages ++ [⟨id, msg⟩]
        ∧ (Progress.error st id msg).2.messages = []
        ∧ (Progress.clear_error st id).1 = st.messages ++ [⟨id, ""⟩]
        ∧ (Progress.clear_error st id).2.messages = [])
    ∧ (st.messages.length + 1 ≤ MAX_ERRORS →
        (Progress.error st id msg).1 = []
        ∧ (Progress.error st id msg).2.messages = st.messages ++ [⟨id, msg⟩]
        ∧ (Progress.clear_error st id).1 = []
        ∧ (Progress.clear_error st id).2.messages = st.messages ++ [⟨id, ""⟩]) := by
  refine ⟨?_, ?_, ?_, ?_⟩
  · simpa [Progress.error] using
      push_error_snd_errors (st.withErrors (st.errors + 1)) id msg
  · simpa [Progress.clear_error] using push_error_snd_errors st id ""
  · intro h
    refine ⟨?_, ?_, ?_, ?_⟩ <;>
      simp [Progress.error, Progress.clear_error, Progress.push_error, h]
  · intro h
    have h' : ¬ st.messages.length + 1 > MAX_ERRORS := Nat.not_lt.mpr h
    refine ⟨?_, ?_, ?_, ?_⟩ <;>
      simp [Progress.error, Progress.clear_error, Progress.push_error, h']

/-- C3 counterexample: a core WriteLock error reaching either version of
the fstored HTTP boundary is answered with status 500 and the generic
body, which is not a 409/400-class status. -/
theorem write_lock_returns_500_counterexample :
    into_response (.Core .WriteLock) = ⟨500, "Something went wrong"⟩
    ∧ into_response_fstored .WriteLock = ⟨500, "Something went wrong"⟩
    ∧ ¬(400 ≤ (into_response (.Core .WriteLock)).status
        ∧ (into_response (.Core .WriteLock)).status < 500) :=
  ⟨rfl, rfl, by decide⟩

/-- C3 amended: whenever the core returns a WriteLock error to the HTTP
boundary, the response carries status 500 with the generic internal-error
body, in both copies of the server error mapping. -/
theorem write_lock_maps_to_internal_error :
    (into_response (.Core .WriteLock)).status = 500
    ∧ (into_response (.Core .WriteLock)).body = "Something went wrong"
    ∧ (into_response_fstored .WriteLock).status = 500
    ∧ (into_response_fstored .WriteLock).body = "Something went wrong" :=
  ⟨rfl, rfl, rfl, rfl⟩

/-- C2: Filesystem::commit succeeds on a part file of mode 0o644 yet the
committed object file still has mode 0o644, not OBJECT_PERMISSIONS
(0o640): the Rust source calls set_mode on the detached Permissions copy
returned by Metadata::permissions and never applies it to the file. -/
theorem commit_does_not_set_mode :
    Filesystem.commit (fun c => c) (fun _ => ("text", "plain"))
        (Filesystem.new ["home"])
        [((Filesystem.new ["home"]).part_path uuidNil, ⟨"HI", 0o644⟩)] uuidNil
      = .ok ([((Filesystem.new ["home"]).object_path uuidNil, ⟨"HI", 0o644⟩)],
          ⟨uuidNil, "HI", 2, "text", "plain"⟩)
    ∧ getFile [((Filesystem.new ["home"]).object_path uuidNil, ⟨"HI", 0o644⟩)]
        ((Filesystem.new ["home"]).object_path uuidNil) = some ⟨"HI", 0o644⟩
    ∧ (0o644 : Nat) ≠ OBJECT_PERMISSIONS :=
  ⟨rfl, rfl, by decide⟩

theorem remove_files_ok_of (fsFail : Path → Option IoErrorKind)
    (paths : List Path) (h : ∀ p ∈ paths, fsFail p ≠ some .other) :
    remove_files fsFail paths = .ok () := by
  induction paths with
  | nil => rfl
  | cons p rest ih =>
    have hok : blockingRemove fsFail p = .ok () := by
      unfold blockingRemove
      cases hfp : fsFail p with
      | none => rfl
      | some k =>
        cases k with
        | notFound => rfl
        | other => exact absurd hfp (h p (List.mem_cons_self p rest))
    have := ih (fun q hq => h q (List.mem_cons_of_mem p hq))
    simp [remove_files, hok, this]

theorem remove_files_err_of (fsFail : Path → Option IoErrorKind)
    (paths : List Path) (h : ∃ p ∈ paths, fsFail p = some .other) :
    ∃ m, remove_files fsFail paths = .error (.Internal m) := by
  induction paths with
  | nil => simp at h
  | cons p rest ih =>
    by_cases hp : fsFail p = some .other
    · exact ⟨"failed to remove file " ++ String.intercalate "/" p,
        by simp [remove_files, blockingRemove, hp]⟩
    · obtain ⟨q, hq, hfq⟩ := h
      rcases List.mem_cons.mp hq with h1 | hq'
      · exact absurd (h1 ▸ hfq) hp
      · obtain ⟨m, hm⟩ := ih ⟨q, hq', hfq⟩
        have hok : blockingRemove fsFail p = .ok () := by
          unfold blockingRemove
          cases hfp : fsFail p with
          | none => rfl
          | some k =>
            cases k with
            | notFound => rfl
            | other => exact absurd hfp hp
        exact ⟨m, by simp [remove_files, hok, hm]⟩

/-- C1 counterexample: with one orphan object row and a filesystem on
which unlinking its file fails (with an error other than NotFound), prune
returns the Internal error and the committed database state still holds
the orphan row: the transaction did not commit and the rows were not
removed, where the claim has prune still returning the removed rows. -/
theorem prune_fs_failure_counterexample :
    ObjectStore.prune (Filesystem.new ["home"]) (fun _ => some .other)
        ⟨[⟨uuidNil, "abc"⟩], []⟩
      = (.error (.Internal
            ("failed to remove file "
              ++ "home/objects/00/00/00000000-0000-0000-0000-000000000000")),
         ⟨[⟨uuidNil, "abc"⟩], []⟩)
    ∧ (⟨[⟨uuidNil, "abc"⟩], []⟩ : DbState) ≠ ⟨[], []⟩ :=
  ⟨rfl, by decide⟩

/-- C1 amended: a failure of the filesystem removal of the pruned
objects' files IS fatal to the metadata transaction: prune propagates the
error before tx.commit, so the transaction rolls back and the committed
database state is unchanged; only when every removal succeeds (NotFound
included, which is ignored) does the transaction commit, with the removed
rows returned. -/
theorem prune_fs_removal_semantics (fs : Filesystem)
    (fsFail : Path → Option IoErrorKind) (db : DbState) :
    ((∀ o ∈ (remove_orphan_objects db).2,
        fsFail (fs.object_path o.object_id) ≠ some .other) →
      ObjectStore.prune fs fsFail db
        = (.ok (remove_orphan_objects db).2, (remove_orphan_objects db).1))
    ∧ ((∃ o ∈ (remove_orphan_objects db).2,
        fsFail (fs.object_path o.object_id) = some .other) →
      (ObjectStore.prune fs fsFail db).2 = db
      ∧ ∃ m, (ObjectStore.prune fs fsFail db).1 = .error (.Internal m)) := by
  constructor
  · intro h
    have hok : remove_files fsFail
        ((remove_orphan_objects db).2.map (fun o => fs.object_path o.object_id))
        = .ok () := by
      apply remove_files_ok_of
      intro p hp
      obtain ⟨o, ho, rfl⟩ := List.mem_map.mp hp
      exact h o ho
    simp [ObjectStore.prune, hok]
  · intro hex
    obtain ⟨o, ho, hfail⟩ := hex
    obtain ⟨m, hm⟩ := remove_files_err_of fsFail
      ((remove_orphan_objects db).2.map (fun o => fs.object_path o.object_id))
      ⟨_, List.mem_map.mpr ⟨o, ho, rfl⟩, hfail⟩
    refine ⟨?_, m, ?_⟩ <;> simp [ObjectStore.prune, hm]

@[simp]
theorem getFile_setFile_same (st : FsState) (p : Path) (f : FileData) :
    getFile (setFile st p f) p = some f := by
  simp [setFile, getFile]

theorem fsCheck_ok_elim (sha : String → String) (st : FsState) (p : Path)
    (h : String) (hok : fsCheck sha st p h = .ok ()) :
    ∃ g, getFile st p = some g ∧ sha g.content = h := by
  cases hg : getFile st p with
  | none =>
    have hne : fsCheck sha st p h = Except.error "file does not exist" := by
      simp [fsCheck, hg]
    rw [hne] at hok
    exact Except.noConfusion hok
  | some g =>
    by_cases hsha : sha g.content = h
    · exact ⟨g, rfl, hsha⟩
    · have hne : fsCheck sha st p h = Except.error "hash mismatch" := by
        simp [fsCheck, hg, hsha]
      rw [hne] at hok
      exact Except.noConfusion hok

theorem copy_skips_on_match (sha : String → String) (fs : Filesystem)
    (id : Uuid) (destination : Path) (hash : String) (st : FsState)
    (g : FileData)
    (hg : getFile st (path_for_id (destination ++ [OBJECTS_DIR]) id) = some g)
    (hh : sha g.content = hash) :
    Filesystem.copy sha fs st id destination hash = (.ok (), st, false) := by
  simp [Filesystem.copy, fsCheck, hg, hh]

/-- C8 counterexample: with a source object file whose SHA-256 differs
from expected_hash, a first copy succeeds (writing the destination), and
a second copy with the same arguments succeeds but takes the copy branch
again — it performs another write, so the second call is not the write-
free skip the claim asserts. -/
theorem copy_second_call_writes_counterexample :
    (Filesystem.copy (fun c => c) (Filesystem.new ["home"])
        [((Filesystem.new ["home"]).object_path uuidNil, ⟨"data", 0o640⟩)]
        uuidNil ["arch"] "expected").1 = .ok ()
    ∧ (Filesystem.copy (fun c => c) (Filesystem.new ["home"])
        [((Filesystem.new ["home"]).object_path uuidNil, ⟨"data", 0o640⟩)]
        uuidNil ["arch"] "expected").2.2 = true
    ∧ (Filesystem.copy (fun c => c) (Filesystem.new ["home"])
        (Filesystem.copy (fun c => c) (Filesystem.new ["home"])
          [((Filesystem.new ["home"]).object_path uuidNil, ⟨"data", 0o640⟩)]
          uuidNil ["arch"] "expected").2.1
        uuidNil ["arch"] "expected").1 = .ok ()
    ∧ (Filesystem.copy (fun c => c) (Filesystem.new ["home"])
        (Filesystem.copy (fun c => c) (Filesystem.new ["home"])
          [((Filesystem.new ["home"]).object_path uuidNil, ⟨"data", 0o640⟩)]
          uuidNil ["arch"] "expected").2.1
        uuidNil ["arch"] "expected").2.2 = true :=
  ⟨rfl, rfl, rfl, rfl⟩

/-- C8 amended: Filesystem::copy skips (success, no write) whenever the
destination exists with SHA-256 equal to expected_hash; and provided the
SOURCE file's SHA-256 equals expected_hash, after one successful copy a
second copy with the same arguments performs no write and succeeds. -/
theorem copy_idempotent_when_hash_matches (sha : String → String)
    (fs : Filesystem) (st : FsState) (id : Uuid) (destination : Path)
    (hash : String) (f : FileData) :
    (getFile st (path_for_id (destination ++ [OBJECTS_DIR]) id) = some f →
      sha f.content = hash →
      Filesystem.copy sha fs st id destination hash = (.ok (), st, false))
    ∧ (getFile st (fs.object_path id) = some f → sha f.content = hash →
      (Filesystem.copy sha fs st id destination hash).1 = .ok ()
      ∧ Filesystem.copy sha fs
          (Filesystem.copy sha fs st id destination hash).2.1
          id destination hash
        = (.ok (), (Filesystem.copy sha fs st id destination hash).2.1,
           false)) := by
  refine ⟨fun hg hh => copy_skips_on_match sha fs id destination hash st f hg hh,
    fun hsrc hh => ?_⟩
  cases hc : fsCheck sha st (path_for_id (destination ++ [OBJECTS_DIR]) id) hash with
  | ok u =>
    cases u
    have h1 : Filesystem.copy sha fs st id destination hash = (.ok (), st, false) := by
      simp [Filesystem.copy, hc]
    obtain ⟨g, hg, hgh⟩ := fsCheck_ok_elim sha st _ hash hc
    rw [h1]
    exact ⟨rfl, copy_skips_on_match sha fs id destination hash st g hg hgh⟩
  | error e =>
    have hsrc' : getFile st (path_for_id fs.objects id) = some f := hsrc
    have h1 : Filesystem.copy sha fs st id destination hash
        = (.ok (), setFile st (path_for_id (destination ++ [OBJECTS_DIR]) id) f, true) := by
      simp [Filesystem.copy, hc, hsrc', Filesystem.object_path]
    rw [h1]
    exact ⟨rfl, copy_skips_on_match sha fs id destination hash _ f
      (getFile_setFile_same st _ f) hh⟩

theorem blockingRemoveExtraneous_eq_filter (uuidParse : String → Option Uuid)
    (primary : FsState) (src : Path) (entries : List DirEntry) :
    blockingRemoveExtraneous uuidParse primary src entries
      = (entries.filter (extraneousSpec uuidParse primary src)).map
          (fun e => e.path) := by
  induction entries with
  | nil => rfl
  | cons e rest ih =>
    by_cases hdir : e.etype = .dir
    · simp [blockingRemoveExtraneous, extraneousSpec, hdir, ih, List.filter_cons]
    · by_cases hfile : e.etype = .file
      · cases hid : uuidParse e.name with
        | none =>
          simp [blockingRemoveExtraneous, extraneousSpec, hdir, hfile, hid, ih,
            List.filter_cons]
        | some id =>
          by_cases hex : (getFile primary (path_for_id src id)).isSome
          · simp [blockingRemoveExtraneous, extraneousSpec, hdir, hfile, hid,
              hex, ih, List.filter_cons]
          · simp [blockingRemoveExtraneous, extraneousSpec, hdir, hfile, hid,
              hex, ih, List.filter_cons]
      · simp [blockingRemoveExtraneous, extraneousSpec, hdir, hfile, ih,
          List.filter_cons]

/-- C9: Filesystem::remove_extraneous removes, among the entries walked
under the destination's objects tree, exactly the non-directory entries
that are not regular files named by a UUID whose path under the primary
objects tree exists: files with a non-UUID name or a missing primary
path are removed, files with a parseable UUID and an existing primary
path are kept, and directory entries are never removed. -/
theorem remove_extraneous_matches_spec (uuidParse : String → Option Uuid)
    (fs : Filesystem) (primary : FsState) (entries : List DirEntry) :
    Filesystem.remove_extraneous uuidParse fs primary entries
      = (entries.filter (extraneousSpec uuidParse primary fs.objects)).map
          (fun e => e.path)
    ∧ (∀ e : DirEntry, e.etype = .dir →
        extraneousSpec uuidParse primary fs.objects e = false)
    ∧ (∀ (e : DirEntry) (id : Uuid), e.etype = .file →
        uuidParse e.name = some id →
        extraneousSpec uuidParse primary fs.objects e
          = !(getFile primary (path_for_id fs.objects id)).isSome)
    ∧ (∀ e : DirEntry, e.etype = .file → uuidParse e.name = none →
        extraneousSpec uuidParse primary fs.objects e = true) := by
  refine ⟨blockingRemoveExtraneous_eq_filter uuidParse primary fs.objects entries,
    ?_, ?_, ?_⟩
  · intro e h
    simp [extraneousSpec, h]
  · intro e id hf hp
    simp [extraneousSpec, hf, hp]
  · intro e hf hp
    simp [extraneousSpec, hf, hp]

@[simp]
theorem progress_new_total (s t : Nat) : (Progress.new s t).total = t := rfl

@[simp]
theorem progress_new_completed (s t : Nat) : (Progress.new s t).completed = 0 := rfl

theorem processObject_completed (action : DbObject → Except String Unit)
    (st : ProgressState) (obj : DbObject) :
    (processObject action st obj).1.completed = st.completed + 1 := by
  cases haction : action obj with
  | ok u =>
    cases u
    simp [processObject, haction, Progress.clear_error, push_error_snd_completed]
  | error m =>
    simp [processObject, haction, Progress.error, push_error_snd_completed]

theorem processObject_total (action : DbObject → Except String Unit)
    (st : ProgressState) (obj : DbObject) :
    (processObject action st obj).1.total = st.total := by
  cases haction : action obj with
  | ok u =>
    cases u
    simp [processObject, haction, Progress.clear_error, push_error_snd_total]
  | error m =>
    simp [processObject, haction, Progress.error, push_error_snd_total]

theorem forEachObjectGo_total (action : DbObject → Except String Unit)
    (stream : List StreamItem) :
    ∀ (st : ProgressState) (flushed : List ObjectError),
      (forEachObjectGo action st flushed stream).1.total = st.total := by
  induction stream with
  | nil => intro st flushed; simp [forEachObjectGo, Progress.messages]
  | cons item rest ih =>
    intro st flushed
    cases item with
    | err m => simp [forEachObjectGo]
    | ok obj => simp [forEachObjectGo, ih, processObject_total]

theorem forEachObjectGo_abort_completed (action : DbObject → Except String Unit)
    (msg : String) (rest : List StreamItem) :
    ∀ (objs : List DbObject) (st : ProgressState) (flushed : List ObjectError),
      (forEachObjectGo action st flushed
          (objs.map .ok ++ .err msg :: rest)).1.completed
        = st.completed + objs.length := by
  intro objs
  induction objs with
  | nil => intro st flushed; simp [forEachObjectGo]
  | cons o os ih =>
    intro st flushed
    simp only [List.map_cons, List.cons_append, forEachObjectGo, List.append_eq]
    rw [ih, processObject_completed]
    simp only [List.length_cons]
    omega

/-- C10: after any run of the object-stream worker, the finish
notification has fired (the ProgressGuard's drop fires it on every exit
path) and Progress::finished returns exactly whether the completed
counter equals the total; in particular, when the database stream yields
an error after some objects but before the counted total, the loop
returns early and finished returns false. -/
theorem for_each_object_finished_iff_total
    (action : DbObject → Except String Unit) (started total now : Nat)
    (slot : TaskState) (objs : List DbObject) (msg : String)
    (rest : List StreamItem) (h : objs.length < total) :
    (∀ stream : List StreamItem,
      (for_each_object action ⟨Progress.new started total⟩ slot
          stream now).1.notified = true
      ∧ Progress.finished
          (for_each_object action ⟨Progress.new started total⟩ slot
            stream now).1
        = some ((for_each_object action ⟨Progress.new started total⟩ slot
            stream now).1.completed == total))
    ∧ (for_each_object action ⟨Progress.new started total⟩ slot
        (objs.map .ok ++ .err msg :: rest) now).1.completed = objs.length
    ∧ Progress.finished
        (for_each_object action ⟨Progress.new started total⟩ slot
          (objs.map .ok ++ .err msg :: rest) now).1
      = some false := by
  have hcompleted :
      (for_each_object action ⟨Progress.new started total⟩ slot
        (objs.map .ok ++ .err msg :: rest) now).1.completed = objs.length := by
    simp [for_each_object, ProgressGuard.drop,
      forEachObjectGo_abort_completed]
  have hgen : ∀ stream : List StreamItem,
      (for_each_object action ⟨Progress.new started total⟩ slot
          stream now).1.notified = true
      ∧ Progress.finished
          (for_each_object action ⟨Progress.new started total⟩ slot
            stream now).1
        = some ((for_each_object action ⟨Progress.new started total⟩ slot
            stream now).1.completed == total) := by
    intro stream
    constructor
    · simp [for_each_object, ProgressGuard.drop]
    · simp [for_each_object, ProgressGuard.drop, Progress.finished,
        forEachObjectGo_total]
  refine ⟨hgen, hcompleted, ?_⟩
  rw [(hgen (objs.map StreamItem.ok ++ StreamItem.err msg :: rest)).2, hcompleted]
  have : (objs.length == total) = false := by
    simp [Nat.ne_of_lt h]
  rw [this]

/-- C10 witness: the general statement at a concrete instance — total 1,
an immediately erroring stream, no objects processed. -/
theorem for_each_object_finished_witness :
    (∀ stream : List StreamItem,
      (for_each_object (fun _ => .ok ()) ⟨Progress.new 0 1⟩ none
          stream 7).1.notified = true
      ∧ Progress.finished
          (for_each_object (fun _ => .ok ()) ⟨Progress.new 0 1⟩ none
            stream 7).1
        = some ((for_each_object (fun _ => .ok ()) ⟨Progress.new 0 1⟩ none
            stream 7).1.completed == 1))
    ∧ (for_each_object (fun _ => .ok ()) ⟨Progress.new 0 1⟩ none
        (([] : List DbObject).map .ok ++ .err "db error" :: []) 7).1.completed
      = ([] : List DbObject).length
    ∧ Progress.finished
        (for_each_object (fun _ => .ok ()) ⟨Progress.new 0 1⟩ none
          (([] : List DbObject).map .ok ++ .err "db error" :: []) 7).1
      = some false :=
  for_each_object_finished_iff_total (fun _ => .ok ()) 0 1 7 none [] "db error" []
    (by decide)

end Fstore
